import Mathlib

/-!
Verification of the maya shader-publish pipeline (`mayaMenuBar/commands/shader_publish.py`,
snapshots 25.12.7 and 26.02.03) against its natural-language specification.

The Python source is shallowly embedded: pure fragments become Lean functions,
the USD layer / stage mutations become explicit state passing over small record
types, the filesystem is an explicit parameter (a membership predicate or a
size map), and floating-point percentage arithmetic is modelled over `ℚ`
(every constant involved is exactly representable in binary floating point,
so the rational model agrees with the float computation on the inputs used).

Layout: all definitions first, then helper lemmas, then one theorem per claim
(with counterexamples and witnesses where required).
-/

namespace ShaderPublish

/-! ## LODPlanner (`run_local_publish`, 26.02.03, lines 1190-1214)

The Python loop computes, for 1-based level `i`:
  `keep_ratio = (base_keep_percent / 100.0) ** i`
  `remove_percent = 100.0 - (keep_ratio * 100.0)`
  `remove_percent = max(0.0, min(99.0, remove_percent))`
-/

/-- Removal percentage planned by `run_local_publish` for LOD level `i`
(verbatim from the code: `max(0.0, min(99.0, 100.0 - keep_ratio * 100.0))`). -/
def removePercent (basePercent : ℚ) (i : ℕ) : ℚ :=
  max 0 (min 99 (100 - (basePercent / 100) ^ i * 100))

/-- Modelled from the spec's words (for the refinement comparison of C6):
`clamp(100*(1-(base_percent/100)^i), 0, 99)`. -/
def removePercentSpec (basePercent : ℚ) (i : ℕ) : ℚ :=
  max 0 (min 99 (100 * (1 - (basePercent / 100) ^ i)))

/-! ## LayerComposer: payload contents layer
(`_write_payload_contents_layer`, 25.12.7, lines 267-277) -/

/-- Model of one `Sdf.Layer`: its default-prim declaration, its ordered
sublayer path list (index 0 strongest) and the root prim specs authored in it. -/
structure SdfLayerModel where
  defaultPrim : String
  subLayerPaths : List String
  rootPrims : List String
  deriving Repr, DecidableEq

/-- `path.replace("\\", "/")` from the Python source. -/
def normPath (s : String) : String :=
  ⟨s.data.map fun c => if c = '\\' then '/' else c⟩

/-- `_write_payload_contents_layer(top_name, proxy_path, shd_path, out_path)`:
creates a new layer, sets `defaultPrim = top_name`,
sets `subLayerPaths = [proxy_path, shd_path]` (separator-normalized)
and authors no prim specs. -/
def write_payload_contents_layer (top_name proxy_path shd_path : String) : SdfLayerModel :=
  { defaultPrim := top_name
    subLayerPaths := [normPath proxy_path, normPath shd_path]
    rootPrims := [] }

/-- The sublayer-prepend step of `_author_meta_and_fix_materials`
(25.12.7, lines 325-332): if the (resolver-normalized) meta identifier is not
already in the payload's sublayer list, insert it at index 0.  The resolver is
modelled as the identity on already-normalized paths. -/
def prependMetaIntoPayload (meta_id : String) (payload : SdfLayerModel) : SdfLayerModel :=
  if meta_id ∈ payload.subLayerPaths then payload
  else { payload with subLayerPaths := meta_id :: payload.subLayerPaths }

/-- The payload-building steps of `export_lookdev_with_payload_and_interface`
(25.12.7, lines 669-676) with `add_proxy=False`: the code executes
`proxy_path = shd_path` and then writes the payload contents layer and
prepends the meta layer. Returns the final sublayer stack of `payload.usdc`. -/
def payloadStackProxyDisabled (top_name shd_path meta_path : String) : List String :=
  (prependMetaIntoPayload (normPath meta_path)
      (write_payload_contents_layer top_name shd_path shd_path)).subLayerPaths

/-! ## MaterialRebinder (`_author_meta_and_fix_materials`, 25.12.7, lines 318-506)

A composed stage is modelled as a list of prims carrying exactly the data the
pass inspects: the prim path (as absolute name segments, so `/Top/mtl/M` is
`["Top", "mtl", "M"]`), whether it is a `UsdShade.Material`, whether it is a
mesh, whether `MaterialBindingAPI.CanApply` holds, whether
`_get_defining_layer_for_prim` finds a defining spec, the direct binding
target, the per-face-subset binding targets and the named-collection bindings
(pairs of collection target and material target). -/

structure UsdPrim where
  path : List String
  isMaterial : Bool
  isMesh : Bool
  canApplyBinding : Bool
  hasDefiningLayer : Bool
  directTarget : Option (List String)
  subsetTargets : List (List String)
  collBindings : List (List String × List String)
  deriving Repr, DecidableEq

structure UsdStage where
  top : String
  prims : List UsdPrim
  deriving Repr, DecidableEq

/-- State of the copy loop: prim paths already authored in the fresh meta
layer (seeded with the `over </top>` and `def </top/mtl>` specs), the
old-path → new-path remap table and the `copied_mats` counter. -/
structure CopyState where
  metaPaths : List (List String)
  remap : List (List String × List String)
  copied : ℕ
  deriving Repr, DecidableEq

/-- The `while meta_layer.GetPrimAtPath(dst): dst = mtl_parent.AppendChild(f"{base}_r{i}")`
collision loop: first try `base`, then `base_r1`, `base_r2`, ...  The search is
bounded by `metaPaths.length + 1` candidates, which by pigeonhole always
contains a free one; the `getD` fallback is unreachable. -/
def freshMtlDst (metaPaths : List (List String)) (mtl_parent : List String)
    (base : String) : List String :=
  if ¬ (mtl_parent ++ [base]) ∈ metaPaths then mtl_parent ++ [base]
  else
    (((List.range (metaPaths.length + 1)).map
        (fun k => mtl_parent ++ [base ++ "_r" ++ toString (k + 1)])).find?
      (fun cand => decide (¬ cand ∈ metaPaths))).getD
      (mtl_parent ++ [base ++ "_r" ++ toString (metaPaths.length + 2)])

/-- One iteration of the material-copy loop (25.12.7 lines 365-379): a prim is
copied iff it `IsA(UsdShade.Material)`, its path does not have prefix
`/top_name`, and a defining layer is found (`if not src_layer: continue`). -/
def copyMaterialStep (top : String) (st : CopyState) (p : UsdPrim) : CopyState :=
  if p.isMaterial && !([top].isPrefixOf p.path) then
    if p.hasDefiningLayer then
      let base := p.path.getLastD ""
      let dst := freshMtlDst st.metaPaths [top, "mtl"] base
      { metaPaths := st.metaPaths ++ [dst]
        remap := st.remap ++ [(p.path, dst)]
        copied := st.copied + 1 }
    else st
  else st

/-- The whole copy loop: fold over the traversal order. -/
def copyMaterials (stage : UsdStage) : CopyState :=
  stage.prims.foldl (copyMaterialStep stage.top)
    { metaPaths := [[stage.top], [stage.top, "mtl"]], remap := [], copied := 0 }

/-- `mat_remap.get(old, old)`. -/
def remapLookup (remap : List (List String × List String)) (t : List String) :
    List String :=
  ((remap.find? fun pr => pr.1 == t).map Prod.snd).getD t

/-- The rebinding loops (25.12.7 lines 386-472): for a binding-capable prim
rewrite the direct target through the remap table; for a mesh rewrite every
per-face-subset target; rewrite the material component of every
named-collection binding (the collection component is kept).  `ClearTargets`
followed by `SetTargets([new])` leaves the target *value* `remapLookup remap old`. -/
def rebindPrim (remap : List (List String × List String)) (p : UsdPrim) : UsdPrim :=
  { p with
    directTarget :=
      if p.canApplyBinding then p.directTarget.map (remapLookup remap)
      else p.directTarget
    subsetTargets :=
      if p.isMesh then p.subsetTargets.map (remapLookup remap)
      else p.subsetTargets
    collBindings :=
      p.collBindings.map fun pr => (pr.1, remapLookup remap pr.2) }

/-- `_author_meta_and_fix_materials`: run the copy loop, then rewrite every
binding target of every prim through the resulting remap table.  Returns the
final copy state (meta-layer contents) and the stage with rewritten targets. -/
def author_meta_and_fix_materials (stage : UsdStage) : CopyState × UsdStage :=
  let st := copyMaterials stage
  (st, { stage with prims := stage.prims.map (rebindPrim st.remap) })

/-! ## Variant-set composition
(`_create_variant_layer`, 25.12.7, lines 566-597;
`addGeoVariantsIntoGeoUsd` and `addShdVariantsIntoShdUsd`, 26.02.03,
lines 767-828).

A variant named `LODi` is represented by its index `i` (the name is
`"LOD" + str(i)`, a bijection). -/

structure VariantSetState where
  variants : List ℕ
  selection : Option ℕ
  deriving Repr, DecidableEq

/-- `UsdVariantSet.AddVariant`: adding an existing variant is a no-op,
otherwise the variant is appended. -/
def addVariant (vs : VariantSetState) (n : ℕ) : VariantSetState :=
  if n ∈ vs.variants then vs else { vs with variants := vs.variants ++ [n] }

/-- `UsdVariantSet.SetVariantSelection`. -/
def setVariantSelection (vs : VariantSetState) (n : ℕ) : VariantSetState :=
  { vs with selection := some n }

/-- `_create_variant_layer` (25.12.7): author `LOD0` (payload reference), then
for each of the `wrapCount` LOD wrap layers author `LODi` selecting it while
editing, and finally `vset.SetVariantSelection("LOD0")`.  The references
authored inside each variant edit context do not touch the variant set state
and are omitted here. -/
def create_variant_layer (wrapCount : ℕ) : VariantSetState :=
  let vs0 : VariantSetState := { variants := [], selection := none }
  let vs1 := setVariantSelection (addVariant vs0 0) 0
  let vsN := (List.range wrapCount).foldl
    (fun vs i => setVariantSelection (addVariant vs (i + 1)) (i + 1)) vs1
  setVariantSelection vsN 0

/-- Path of the level-`i` geo LOD fragment checked by
`addGeoVariantsIntoGeoUsd`: `{geoVariant_dir}/geoVariant_geoLOD{i}.usdc`. -/
def geoLodPath (geoVariantDir : String) (i : ℕ) : String :=
  geoVariantDir ++ "/geoVariant_geoLOD" ++ toString i ++ ".usdc"

/-- `addGeoVariantsIntoGeoUsd` (26.02.03, lines 767-797), restricted to its
variant-set effect: author `LOD0`, then for `i in range(1, lod_count+1)` skip
the variant when its fragment is absent on disk (`if not os.path.exists:
continue`), and finally re-select `LOD0`.  `exists_` is the filesystem. -/
def addGeoVariantsIntoGeoUsd (exists_ : String → Bool) (geoVariantDir : String)
    (lodCount : ℕ) : VariantSetState :=
  let vs0 := setVariantSelection (addVariant { variants := [], selection := none } 0) 0
  let vsN := (List.range lodCount).foldl
    (fun vs k =>
      let i := k + 1
      if exists_ (geoLodPath geoVariantDir i) then
        setVariantSelection (addVariant vs i) i
      else vs) vs0
  setVariantSelection vsN 0

/-- Path of the dirty shader-LOD fragment checked by `process_shd_lod`:
`{shdVariant_dir}/shdVariant_shdLOD{i}.usdc`. -/
def shdLodPath (shdVariantDir : String) (i : ℕ) : String :=
  shdVariantDir ++ "/shdVariant_shdLOD" ++ toString i ++ ".usdc"

/-- `process_shd_lod` (26.02.03, lines 810-817): only when the dirty fragment
exists and `clean_shader_file` succeeds (which additionally requires
`Sdf.Layer.FindOrOpen` to succeed, modelled by `opensOk`) is the variant
added and selected. -/
def process_shd_lod (exists_ opensOk : String → Bool) (shdVariantDir : String)
    (vs : VariantSetState) (i : ℕ) : VariantSetState :=
  if exists_ (shdLodPath shdVariantDir i) && opensOk (shdLodPath shdVariantDir i) then
    setVariantSelection (addVariant vs i) i
  else vs

/-- `addShdVariantsIntoShdUsd` (26.02.03, lines 799-828): process `LOD0`, then
the texture tiers `[2, 4, 10]`, and finally re-select `LOD0` unconditionally. -/
def addShdVariantsIntoShdUsd (exists_ opensOk : String → Bool)
    (shdVariantDir : String) : VariantSetState :=
  let vs0 : VariantSetState := { variants := [], selection := none }
  let vs1 := process_shd_lod exists_ opensOk shdVariantDir vs0 0
  let vs2 := [2, 4, 10].foldl (process_shd_lod exists_ opensOk shdVariantDir) vs1
  setVariantSelection vs2 0

/-- `geoUsdExport` (26.02.03, lines 736-765), restricted to the sublayer list
of the fresh `geo.usdc`: the relative proxy path (`"proxy.usdc"`) is appended
iff `proxy.usdc` exists in the version folder; otherwise the list stays empty. -/
def geoUsdExport_subLayerPaths (exists_ : String → Bool) (folderPath : String) :
    List String :=
  if exists_ (folderPath ++ "/proxy.usdc") then ["proxy.usdc"] else []

/-! ## BuildGraph / Scheduler (`run_deadline_publish`, 26.02.03, lines 1268-1470) -/

/-- The publish options read from the UI into `config_data`. -/
structure DeadlineConfig where
  doTex : Bool
  hasProxy : Bool
  hasLods : Bool
  lodCount : ℕ
  deriving Repr, DecidableEq

/-- The `assembly_dependencies` list built by the execution chain
(lines 1437-1466): `export_base`'s id is appended unconditionally; the OIIO,
proxy and per-level LOD job ids are appended exactly when the corresponding
option is enabled and the submission returned an id (`if job_id:`).
`submit_assemble_job` then passes this exact list as the assemble job's
`JobDependencies`. -/
def assemblyDependencies (cfg : DeadlineConfig) (exportId : String)
    (oiioId proxyId : Option String) (lodId : ℕ → Option String) : List String :=
  let d0 := [exportId]
  let d1 := d0 ++ (if cfg.doTex then oiioId.toList else [])
  let d2 := d1 ++ (if cfg.hasProxy then proxyId.toList else [])
  d2 ++ (if cfg.hasLods then
          (List.range cfg.lodCount).filterMap (fun k => lodId (k + 1))
        else [])

/-! ## LOD reduction input traces
(`_create_single_lod_usd`, 26.02.03, lines 613-675, driven by
`run_local_publish` STEP 3; `_create_lod_usd`, 25.12.7, lines 509-544).

A mesh is abstracted by its face count in `ℚ`; `polyReduce(p=percent)`
removes `percent` percent of it.  Each trace records, per LOD level, the pair
(face count of the mesh the reduction is applied to, face count after). -/

/-- `polyReduce` with removal percentage `p` applied to a mesh of `faces` faces. -/
def reduceMesh (faces removePct : ℚ) : ℚ :=
  faces * (1 - removePct / 100)

/-- The 26.02.03 path: `run_local_publish` calls
`task_export_single_lod(top_node, ...)` for each `i in range(1, lod_count+1)`
with the cumulative `remove_percent`, and `_create_single_lod_usd` begins with
`cmds.duplicate(src)` — a fresh duplicate of the original for every level. -/
def run_local_geo_lod_trace (orig basePercent : ℚ) (lodCount : ℕ) : List (ℚ × ℚ) :=
  (List.range lodCount).map fun k =>
    let i := k + 1
    let dup := orig
    (dup, reduceMesh dup (removePercent basePercent i))

/-- The 25.12.7 path: `_create_lod_usd` duplicates `src` once *before* the
loop, then inside `for i in range(lod_count)` reduces that same duplicate by
`per_step_percent` again and again — level `i+1` reduces the output of level
`i`. -/
def create_lod_usd_trace (orig perStep : ℚ) (lodCount : ℕ) : List (ℚ × ℚ) :=
  ((List.range lodCount).foldl
    (fun (acc : List (ℚ × ℚ) × ℚ) _ =>
      let input := acc.2
      let output := reduceMesh input perStep
      (acc.1 ++ [(input, output)], output))
    ([], orig)).1

/-! ## VersionAllocator (`_next_version_folder`, 25.12.7, lines 49-66)

Directory-entry names are modelled as `List Char`.  Only the names of
subdirectories of the parent are scanned; `entries` is that list. -/

/-- `int(m.group(1))` on a digit string (most-significant first). -/
def digitsToNat (ds : List Char) : ℕ :=
  ds.foldl (fun a c => 10 * a + (c.toNat - 48)) 0

/-- Is `c` one of `'0'..'9'`? -/
def isDigitChar (c : Char) : Bool :=
  decide ('0' ≤ c ∧ c ≤ '9')

/-- The regex `^v(\d{3,})$` with `re.IGNORECASE`: a leading `v` or `V`
followed by at least three digits; returns the matched number. -/
def parseVersionName (s : List Char) : Option ℕ :=
  match s with
  | [] => none
  | c :: rest =>
    if (c == 'v' || c == 'V') && decide (3 ≤ rest.length) && rest.all isDigitChar then
      some (digitsToNat rest)
    else none

/-- The decimal digit character of `d` (`d < 10`). -/
def digitChar (d : ℕ) : Char := Char.ofNat (48 + d)

/-- Decimal digits of `n`, most-significant first, with explicit fuel so the
definition is structural (the fuel `n + 1` always suffices). -/
def natDigitsAux : ℕ → ℕ → List Char
  | 0, _ => []
  | fuel + 1, n =>
    if n < 10 then [digitChar n]
    else natDigitsAux fuel (n / 10) ++ [digitChar (n % 10)]

def natDigits (n : ℕ) : List Char := natDigitsAux (n + 1) n

/-- Python's `f'v{n:03d}'` without the leading `v`: the decimal digits of `n`
zero-padded on the left to width at least 3. -/
def zeroPad3 (n : ℕ) : List Char :=
  if n < 10 then '0' :: '0' :: natDigits n
  else if n < 100 then '0' :: natDigits n
  else natDigits n

/-- The label `f'v{n:03d}'`. -/
def versionLabel (n : ℕ) : List Char := 'v' :: zeroPad3 n

/-- The scan loop: maximum matched value over the entries, `0` if none. -/
def maxVersion (entries : List (List Char)) : ℕ :=
  entries.foldl
    (fun m e => match parseVersionName e with
                | some k => max m k
                | none => m) 0

/-- `_next_version_folder`: the returned version label `f'v{(max_n+1):03d}'`. -/
def next_version_folder (entries : List (List Char)) : List Char :=
  versionLabel (maxVersion entries + 1)

/-! ## Texture conversion (`_convert_single_file`, 26.02.03, lines 452-468) -/

/-- The filesystem as seen by the conversion step: `sizeOf p = none` when `p`
does not exist, `some n` when it exists with size `n` bytes. -/
structure FileSystem where
  sizeOf : String → Option ℕ

/-- Result of `_convert_single_file` together with the filesystem after the
call and whether the external `oiiotool` process was launched. -/
structure ConvertOutcome where
  ok : Bool
  msg : String
  fs : FileSystem
  invokedTool : Bool

/-- `_convert_single_file(src, dst, scale)`:
`if os.path.exists(dst) and os.path.getsize(dst) > 0: return True, "Skipped"`;
otherwise run `oiiotool src --resize pct% -o dst` (the external tool is the
parameter `runTool`, returning the new filesystem on success and `none` when
`subprocess.run(check=True)` raises, in which case the step returns
`False, str(e)` — the exception text is opaque and modelled as `"error"`). -/
def convert_single_file (runTool : FileSystem → String → String → ℕ → Option FileSystem)
    (fs : FileSystem) (src dst : String) (scale : ℕ) : ConvertOutcome :=
  if (match fs.sizeOf dst with
      | some n => decide (0 < n)
      | none => false) then
    { ok := true, msg := "Skipped", fs := fs, invokedTool := false }
  else
    match runTool fs src dst scale with
    | some fs2 => { ok := true, msg := "Processed", fs := fs2, invokedTool := true }
    | none => { ok := false, msg := "error", fs := fs, invokedTool := true }

/-! ## Helper lemmas -/

theorem normPath_eq_self (s : String) (h : ∀ c ∈ s.data, c ≠ '\\') :
    normPath s = s := by
  obtain ⟨d⟩ := s
  unfold normPath
  congr 1
  calc d.map (fun c => if c = '\\' then '/' else c)
      = d.map id := by
        apply List.map_congr_left
        intro a ha
        simp only [id_eq]
        rw [if_neg (h a ha)]
    _ = d := List.map_id d

theorem foldl_fix {α β : Type _} (f : β → α → β) (l : List α) (init : β)
    (h : ∀ st : β, ∀ p ∈ l, f st p = st) : l.foldl f init = init := by
  induction l generalizing init with
  | nil => rfl
  | cons a as ih =>
    simp only [List.foldl_cons]
    rw [h init a (List.mem_cons_self a as)]
    exact ih init (fun st p hp => h st p (List.mem_cons_of_mem a hp))

theorem isPrefixOf_head (top m : String) (p : List String)
    (h : List.isPrefixOf [top, m] p = true) : List.isPrefixOf [top] p = true := by
  cases p with
  | nil => exact absurd h (by simp [List.isPrefixOf])
  | cons x xs =>
    simp only [List.isPrefixOf, Bool.and_eq_true, beq_iff_eq] at h
    simp only [List.isPrefixOf, Bool.and_eq_true, beq_iff_eq]
    exact ⟨h.1, trivial⟩

theorem copyMaterialStep_fix (top : String) (st : CopyState) (p : UsdPrim)
    (h : p.isMaterial = true → List.isPrefixOf [top] p.path = true) :
    copyMaterialStep top st p = st := by
  unfold copyMaterialStep
  rcases hm : p.isMaterial with _ | _
  · simp [hm]
  · simp [hm, h hm]

theorem copyMaterials_fix (stage : UsdStage)
    (h : ∀ p ∈ stage.prims, p.isMaterial = true →
      List.isPrefixOf [stage.top] p.path = true) :
    copyMaterials stage =
      { metaPaths := [[stage.top], [stage.top, "mtl"]], remap := [], copied := 0 } := by
  unfold copyMaterials
  exact foldl_fix _ _ _ (fun st p hp => copyMaterialStep_fix _ _ _ (h p hp))

theorem remapLookup_nil : remapLookup [] = id :=
  funext fun _ => rfl

theorem rebindPrim_nil (p : UsdPrim) : rebindPrim [] p = p := by
  unfold rebindPrim
  rw [remapLookup_nil]
  cases p
  simp

theorem addVariant_variants (vs : VariantSetState) (n : ℕ) :
    (addVariant vs n).variants =
      if n ∈ vs.variants then vs.variants else vs.variants ++ [n] := by
  unfold addVariant
  split <;> rfl

theorem setVariantSelection_variants (vs : VariantSetState) (n : ℕ) :
    (setVariantSelection vs n).variants = vs.variants := rfl

theorem create_variant_layer_fold_variants (n : ℕ) :
    ((List.range n).foldl
      (fun vs i => setVariantSelection (addVariant vs (i + 1)) (i + 1))
      { variants := [0], selection := some 0 }).variants = List.range (n + 1) := by
  induction n with
  | zero => rfl
  | succ n ih =>
    rw [List.range_succ, List.foldl_append, List.foldl_cons, List.foldl_nil,
      setVariantSelection_variants, addVariant_variants, ih]
    rw [if_neg (by simp), ← List.range_succ]

theorem variantFoldGuarded (cond : ℕ → Bool) (init : VariantSetState)
    (h0 : ∀ x ∈ init.variants, x = 0) (n : ℕ) :
    ((List.range n).foldl
      (fun vs k => if cond (k + 1) then
          setVariantSelection (addVariant vs (k + 1)) (k + 1) else vs) init).variants
      = init.variants ++ (List.range n).filterMap
          (fun k => if cond (k + 1) then some (k + 1) else none) := by
  induction n with
  | zero => simp
  | succ n ih =>
    rw [List.range_succ, List.foldl_append, List.foldl_cons, List.foldl_nil]
    by_cases hc : cond (n + 1) = true
    · have hnotmem : (n + 1) ∉ init.variants ++ (List.range n).filterMap
          (fun k => if cond (k + 1) then some (k + 1) else none) := by
        intro hmem
        rcases List.mem_append.1 hmem with h | h
        · exact absurd (h0 _ h) (by omega)
        · obtain ⟨k, hk, hsome⟩ := List.mem_filterMap.1 h
          have hkn := List.mem_range.1 hk
          split at hsome
          · have : k + 1 = n + 1 := Option.some.inj hsome
            omega
          · exact Option.noConfusion hsome
      rw [if_pos hc, setVariantSelection_variants, addVariant_variants, ih,
        if_neg hnotmem, List.filterMap_append, List.append_assoc]
      congr 1
      simp [hc]
    · rw [if_neg hc, ih, List.filterMap_append]
      simp [hc]

theorem addGeoVariantsIntoGeoUsd_variants (ex : String → Bool) (dir : String) (n : ℕ) :
    (addGeoVariantsIntoGeoUsd ex dir n).variants =
      0 :: (List.range n).filterMap
        (fun k => if ex (geoLodPath dir (k + 1)) then some (k + 1) else none) := by
  unfold addGeoVariantsIntoGeoUsd
  dsimp only
  rw [setVariantSelection_variants]
  have hinit : setVariantSelection (addVariant { variants := [], selection := none } 0) 0
      = ({ variants := [0], selection := some 0 } : VariantSetState) := by decide
  rw [hinit]
  exact variantFoldGuarded (fun i => ex (geoLodPath dir i))
    { variants := [0], selection := some 0 } (by intro x hx; simpa using hx) n

theorem addShdVariantsIntoShdUsd_variants (ex op : String → Bool) (dir : String) :
    (addShdVariantsIntoShdUsd ex op dir).variants =
      (if ex (shdLodPath dir 0) && op (shdLodPath dir 0) then [0] else []) ++
      (if ex (shdLodPath dir 2) && op (shdLodPath dir 2) then [2] else []) ++
      (if ex (shdLodPath dir 4) && op (shdLodPath dir 4) then [4] else []) ++
      (if ex (shdLodPath dir 10) && op (shdLodPath dir 10) then [10] else []) := by
  unfold addShdVariantsIntoShdUsd process_shd_lod
  dsimp only [List.foldl_cons, List.foldl_nil]
  rw [setVariantSelection_variants]
  split_ifs <;> simp [addVariant, setVariantSelection]

theorem natDigitsAux_congr : ∀ (f1 f2 n : ℕ), n < f1 → n < f2 →
    natDigitsAux f1 n = natDigitsAux f2 n := by
  intro f1
  induction f1 with
  | zero => intro f2 n h1 _; omega
  | succ f1 ih =>
    intro f2 n h1 h2
    cases f2 with
    | zero => omega
    | succ f2 =>
      show (if n < 10 then [digitChar n] else natDigitsAux f1 (n / 10) ++ [digitChar (n % 10)])
        = (if n < 10 then [digitChar n] else natDigitsAux f2 (n / 10) ++ [digitChar (n % 10)])
      by_cases h10 : n < 10
      · rw [if_pos h10, if_pos h10]
      · rw [if_neg h10, if_neg h10]
        have hd : n / 10 < n := Nat.div_lt_self (by omega) (by omega)
        rw [ih f2 (n / 10) (by omega) (by omega)]

theorem natDigits_eq (n : ℕ) :
    natDigits n = if n < 10 then [digitChar n]
      else natDigits (n / 10) ++ [digitChar (n % 10)] := by
  unfold natDigits
  show (if n < 10 then [digitChar n] else natDigitsAux n (n / 10) ++ [digitChar (n % 10)]) = _
  by_cases h10 : n < 10
  · rw [if_pos h10, if_pos h10]
  · rw [if_neg h10, if_neg h10]
    have hd : n / 10 < n := Nat.div_lt_self (by omega) (by omega)
    rw [natDigitsAux_congr n (n / 10 + 1) (n / 10) (by omega) (by omega)]

theorem digitsToNat_append (ds : List Char) (c : Char) :
    digitsToNat (ds ++ [c]) = 10 * digitsToNat ds + (c.toNat - 48) := by
  unfold digitsToNat
  rw [List.foldl_append]
  rfl

theorem charVal_digitChar (d : ℕ) (h : d < 10) : (digitChar d).toNat - 48 = d := by
  interval_cases d <;> decide

theorem isDigitChar_digitChar (d : ℕ) (h : d < 10) : isDigitChar (digitChar d) = true := by
  interval_cases d <;> decide

theorem digitsToNat_natDigits (n : ℕ) : digitsToNat (natDigits n) = n := by
  induction n using Nat.strong_induction_on with
  | _ n ih =>
    rw [natDigits_eq]
    by_cases h10 : n < 10
    · rw [if_pos h10]
      show 10 * 0 + ((digitChar n).toNat - 48) = n
      rw [charVal_digitChar n h10]
      omega
    · rw [if_neg h10, digitsToNat_append,
        ih (n / 10) (Nat.div_lt_self (by omega) (by omega)),
        charVal_digitChar (n % 10) (Nat.mod_lt _ (by omega))]
      omega

theorem natDigits_all_digits (n : ℕ) : (natDigits n).all isDigitChar = true := by
  induction n using Nat.strong_induction_on with
  | _ n ih =>
    rw [natDigits_eq]
    by_cases h10 : n < 10
    · rw [if_pos h10]
      simp [isDigitChar_digitChar n h10]
    · rw [if_neg h10, List.all_append,
        ih (n / 10) (Nat.div_lt_self (by omega) (by omega))]
      simp [isDigitChar_digitChar (n % 10) (Nat.mod_lt _ (by omega))]

theorem natDigits_length_pos (n : ℕ) : 1 ≤ (natDigits n).length := by
  rw [natDigits_eq]
  by_cases h10 : n < 10
  · rw [if_pos h10]
    simp
  · rw [if_neg h10]
    simp

theorem natDigits_length_two (n : ℕ) (h : 10 ≤ n) : 2 ≤ (natDigits n).length := by
  rw [natDigits_eq, if_neg (by omega)]
  have := natDigits_length_pos (n / 10)
  simp only [List.length_append, List.length_cons, List.length_nil]
  omega

theorem natDigits_length_three (n : ℕ) (h : 100 ≤ n) : 3 ≤ (natDigits n).length := by
  rw [natDigits_eq, if_neg (by omega)]
  have h2 : 10 ≤ n / 10 := by omega
  have := natDigits_length_two (n / 10) h2
  simp only [List.length_append, List.length_cons, List.length_nil]
  omega

theorem zeroPad3_length (n : ℕ) : 3 ≤ (zeroPad3 n).length := by
  unfold zeroPad3
  split_ifs with h1 h2
  · have := natDigits_length_pos n
    simp only [List.length_cons]
    omega
  · have := natDigits_length_two n (by omega)
    simp only [List.length_cons]
    omega
  · exact natDigits_length_three n (by omega)

theorem zeroPad3_all_digits (n : ℕ) : (zeroPad3 n).all isDigitChar = true := by
  unfold zeroPad3
  have hall := natDigits_all_digits n
  have h0 : isDigitChar '0' = true := by decide
  split_ifs <;> simp [List.all_cons, hall, h0]

theorem digitsToNat_cons_zero (l : List Char) :
    digitsToNat ('0' :: l) = digitsToNat l := rfl

theorem digitsToNat_zeroPad3 (n : ℕ) : digitsToNat (zeroPad3 n) = n := by
  unfold zeroPad3
  split_ifs <;> exact digitsToNat_natDigits n

theorem parseVersionName_versionLabel (n : ℕ) :
    parseVersionName (versionLabel n) = some n := by
  have hcond : (('v' == 'v' || 'v' == 'V')
      && decide (3 ≤ (zeroPad3 n).length)
      && (zeroPad3 n).all isDigitChar) = true := by
    rw [zeroPad3_all_digits]
    simp [zeroPad3_length n]
  show (if ('v' == 'v' || 'v' == 'V')
      && decide (3 ≤ (zeroPad3 n).length)
      && (zeroPad3 n).all isDigitChar
    then some (digitsToNat (zeroPad3 n)) else none) = some n
  rw [hcond]
  simp [digitsToNat_zeroPad3]

theorem maxVersion_init_le (entries : List (List Char)) : ∀ init : ℕ,
    init ≤ entries.foldl
      (fun m e => match parseVersionName e with
                  | some k => max m k
                  | none => m) init := by
  induction entries with
  | nil => intro init; exact le_rfl
  | cons a as ih =>
    intro init
    simp only [List.foldl_cons]
    refine le_trans ?_ (ih _)
    rcases ha : parseVersionName a with _ | k
    · simp [ha]
    · simp [ha]

theorem le_maxVersion (entries : List (List Char)) (e : List Char) (he : e ∈ entries)
    (k : ℕ) (hk : parseVersionName e = some k) : k ≤ maxVersion entries := by
  unfold maxVersion
  have main : ∀ (l : List (List Char)) (init : ℕ), e ∈ l →
      k ≤ l.foldl
        (fun m e => match parseVersionName e with
                    | some k => max m k
                    | none => m) init := by
    intro l
    induction l with
    | nil => intro init h; cases h
    | cons a as ih =>
      intro init h
      rcases List.mem_cons.1 h with rfl | h2
      · simp only [List.foldl_cons, hk]
        exact le_trans (le_max_right init k) (maxVersion_init_le as _)
      · simp only [List.foldl_cons]
        exact ih _ h2
  exact main entries 0 he

/-! ## Claim theorems -/

/-- **C6**: for every `base_percent ∈ (0,100)` the planned removal percentage
of `run_local_publish` equals the spec's `clamp(100*(1-(base_percent/100)^i), 0, 99)`,
is non-decreasing in the level `i` and lies in `[0, 99]`; for
`base_percent = 50` levels 1..3 give 50, 75, 87.5. -/
theorem C6_removePercent_clamped_monotone (b : ℚ) (hb0 : 0 < b) (hb1 : b < 100) :
    (∀ i : ℕ, removePercent b i = removePercentSpec b i) ∧
    (∀ i j : ℕ, 1 ≤ i → i ≤ j → removePercent b i ≤ removePercent b j) ∧
    (∀ i : ℕ, 0 ≤ removePercent b i ∧ removePercent b i ≤ 99) ∧
    (removePercent 50 1 = 50 ∧ removePercent 50 2 = 75 ∧
      removePercent 50 3 = 175 / 2) := by
  refine ⟨?_, ?_, ?_, ?_, ?_, ?_⟩
  · intro i
    unfold removePercent removePercentSpec
    ring_nf
  · intro i j _ hij
    unfold removePercent
    have hr0 : (0 : ℚ) ≤ b / 100 := by positivity
    have hr1 : b / 100 ≤ 1 := by
      rw [div_le_one (by norm_num : (0:ℚ) < 100)]
      exact le_of_lt hb1
    have hpow : (b / 100) ^ j ≤ (b / 100) ^ i :=
      pow_le_pow_of_le_one hr0 hr1 hij
    have hbase : 100 - (b / 100) ^ i * 100 ≤ 100 - (b / 100) ^ j * 100 := by
      have := mul_le_mul_of_nonneg_right hpow (by norm_num : (0:ℚ) ≤ 100)
      linarith
    exact max_le_max le_rfl (min_le_min le_rfl hbase)
  · intro i
    exact ⟨le_max_left 0 _, max_le (by norm_num) (min_le_left _ _)⟩
  · norm_num [removePercent]
  · norm_num [removePercent]
  · norm_num [removePercent]

/-- Witness for C6 at `base_percent = 50`. -/
theorem C6_removePercent_clamped_monotone_witness :
    (0 : ℚ) < 50 ∧ (50 : ℚ) < 100 ∧ removePercent 50 2 = 75 :=
  ⟨by norm_num, by norm_num,
    (C6_removePercent_clamped_monotone 50 (by norm_num) (by norm_num)).2.2.2.2.1⟩

/-- **C2**: `_write_payload_contents_layer`, given the ordered
strongest-to-weakest layer paths, produces a layer whose sublayer list is
exactly that list in the same order (stack index 0 = the first, strongest
input), whose only other content is the default-prim declaration, and which
authors no prim specs.  (The hypotheses say the input paths are already
separator-normalized, i.e. contain no backslash.) -/
theorem C2_compose_payload_order_preserving (top proxy shd : String)
    (hp : ∀ c ∈ proxy.data, c ≠ '\\') (hs : ∀ c ∈ shd.data, c ≠ '\\') :
    (write_payload_contents_layer top proxy shd).subLayerPaths = [proxy, shd] ∧
    (write_payload_contents_layer top proxy shd).subLayerPaths.head? = some proxy ∧
    (write_payload_contents_layer top proxy shd).rootPrims = [] ∧
    (write_payload_contents_layer top proxy shd).defaultPrim = top := by
  unfold write_payload_contents_layer
  rw [normPath_eq_self proxy hp, normPath_eq_self shd hs]
  exact ⟨rfl, rfl, rfl, rfl⟩

/-- Witness for C2 at concrete paths. -/
theorem C2_compose_payload_order_preserving_witness :
    (write_payload_contents_layer "asset" "/v1/proxy.usdc" "/v1/shd.usdc").subLayerPaths
      = ["/v1/proxy.usdc", "/v1/shd.usdc"] :=
  (C2_compose_payload_order_preserving "asset" "/v1/proxy.usdc" "/v1/shd.usdc"
    (by decide) (by decide)).1

/-- **C3 counterexample**: with the proxy option disabled the 25.12.7 export
path substitutes the base shading layer for the proxy slot
(`proxy_path = shd_path`), so at a concrete input the payload sublayer stack
is `[meta, shd, shd]` — three entries with a duplicate — and not the claimed
`[meta, shd]`. -/
theorem C3_counterexample :
    payloadStackProxyDisabled "asset" "/pub/v001/shd.usdc" "/pub/v001/meta.usdc"
      = ["/pub/v001/meta.usdc", "/pub/v001/shd.usdc", "/pub/v001/shd.usdc"] ∧
    ¬ (payloadStackProxyDisabled "asset" "/pub/v001/shd.usdc" "/pub/v001/meta.usdc"
      = ["/pub/v001/meta.usdc", "/pub/v001/shd.usdc"]) := by
  constructor
  · decide
  · decide

/-- **C3 amended**: when a publish runs with the proxy option disabled, the
payload stack contains three entries — the meta override layer (strongest)
followed by the base shading layer twice, the second occurrence standing in
for the absent proxy (a duplicate slot). -/
theorem C3_payload_stack_proxy_disabled (top shd meta : String)
    (hs : ∀ c ∈ shd.data, c ≠ '\\') (hm : ∀ c ∈ meta.data, c ≠ '\\')
    (hne : meta ≠ shd) :
    payloadStackProxyDisabled top shd meta = [meta, shd, shd] := by
  unfold payloadStackProxyDisabled prependMetaIntoPayload write_payload_contents_layer
  rw [normPath_eq_self shd hs, normPath_eq_self meta hm]
  simp [hne]

/-- Witness for the amended C3. -/
theorem C3_payload_stack_proxy_disabled_witness :
    payloadStackProxyDisabled "asset" "/pub/v001/shd.usdc" "/pub/v001/m.usdc"
      = ["/pub/v001/m.usdc", "/pub/v001/shd.usdc", "/pub/v001/shd.usdc"] :=
  C3_payload_stack_proxy_disabled "asset" "/pub/v001/shd.usdc" "/pub/v001/m.usdc"
    (by decide) (by decide) (by decide)

/-- **C1**: the material-rebind pass is idempotent on an already-rebound
document: if every material it would copy already lives under the top prim's
own `mtl` scope (so the copy condition `not path.HasPrefix(top)` never fires),
the pass copies zero additional materials, builds an empty remap table, and
leaves every direct, per-face-subset and collection binding target unchanged. -/
theorem C1_material_rebinder_idempotent (stage : UsdStage)
    (hmat : ∀ p ∈ stage.prims, p.isMaterial = true →
      List.isPrefixOf [stage.top, "mtl"] p.path = true) :
    (author_meta_and_fix_materials stage).1.copied = 0 ∧
    (author_meta_and_fix_materials stage).1.remap = [] ∧
    (author_meta_and_fix_materials stage).2 = stage := by
  have h1 : copyMaterials stage =
      { metaPaths := [[stage.top], [stage.top, "mtl"]], remap := [], copied := 0 } :=
    copyMaterials_fix stage
      (fun p hp hm => isPrefixOf_head _ _ _ (hmat p hp hm))
  unfold author_meta_and_fix_materials
  rw [h1]
  refine ⟨rfl, rfl, ?_⟩
  show ({ stage with prims := stage.prims.map (rebindPrim []) } : UsdStage) = stage
  have h2 : stage.prims.map (rebindPrim []) = stage.prims := by
    calc stage.prims.map (rebindPrim [])
        = stage.prims.map id := List.map_congr_left (fun p _ => rebindPrim_nil p)
      _ = stage.prims := List.map_id _
  rw [h2]

/-- Witness for C1: a composed document whose only material already lives at
`/asset/mtl/M` and whose mesh bindings (direct, subset, collection) all point
at it. -/
theorem C1_material_rebinder_idempotent_witness :
    (author_meta_and_fix_materials
      { top := "asset",
        prims := [
          { path := ["asset", "mtl", "M"], isMaterial := true, isMesh := false,
            canApplyBinding := false, hasDefiningLayer := true, directTarget := none,
            subsetTargets := [], collBindings := [] },
          { path := ["asset", "geo", "mesh1"], isMaterial := false, isMesh := true,
            canApplyBinding := true, hasDefiningLayer := true,
            directTarget := some ["asset", "mtl", "M"],
            subsetTargets := [["asset", "mtl", "M"]],
            collBindings := [(["asset", "geo", "mesh1"], ["asset", "mtl", "M"])] }] }).1.copied
      = 0 ∧
    (author_meta_and_fix_materials
      { top := "asset",
        prims := [
          { path := ["asset", "mtl", "M"], isMaterial := true, isMesh := false,
            canApplyBinding := false, hasDefiningLayer := true, directTarget := none,
            subsetTargets := [], collBindings := [] },
          { path := ["asset", "geo", "mesh1"], isMaterial := false, isMesh := true,
            canApplyBinding := true, hasDefiningLayer := true,
            directTarget := some ["asset", "mtl", "M"],
            subsetTargets := [["asset", "mtl", "M"]],
            collBindings := [(["asset", "geo", "mesh1"], ["asset", "mtl", "M"])] }] }).2
      = { top := "asset",
          prims := [
            { path := ["asset", "mtl", "M"], isMaterial := true, isMesh := false,
              canApplyBinding := false, hasDefiningLayer := true, directTarget := none,
              subsetTargets := [], collBindings := [] },
            { path := ["asset", "geo", "mesh1"], isMaterial := false, isMesh := true,
              canApplyBinding := true, hasDefiningLayer := true,
              directTarget := some ["asset", "mtl", "M"],
              subsetTargets := [["asset", "mtl", "M"]],
              collBindings := [(["asset", "geo", "mesh1"], ["asset", "mtl", "M"])] }] } :=
  ⟨(C1_material_rebinder_idempotent _ (by decide)).1,
    (C1_material_rebinder_idempotent _ (by decide)).2.2⟩

/-- **C4**: every variant-set composition operation — the geometry `levels`
set of `_create_variant_layer` (25.12.7) and of `addGeoVariantsIntoGeoUsd`
(26.02.03), and the material `mtl` set of `addShdVariantsIntoShdUsd` — ends
with the selection set back to the default variant `LOD0` (index 0), for every
variant count and every filesystem state; for `_create_variant_layer` all
`wrapCount + 1` variants `LOD0..LODn` have been authored when it finishes. -/
theorem C4_variant_selection_returns_default :
    (∀ n : ℕ, (create_variant_layer n).selection = some 0 ∧
      (create_variant_layer n).variants = List.range (n + 1)) ∧
    (∀ (ex : String → Bool) (dir : String) (n : ℕ),
      (addGeoVariantsIntoGeoUsd ex dir n).selection = some 0) ∧
    (∀ (ex op : String → Bool) (dir : String),
      (addShdVariantsIntoShdUsd ex op dir).selection = some 0) := by
  refine ⟨fun n => ⟨rfl, ?_⟩, fun ex dir n => rfl, fun ex op dir => rfl⟩
  unfold create_variant_layer
  dsimp only
  rw [setVariantSelection_variants]
  have hinit : setVariantSelection (addVariant { variants := [], selection := none } 0) 0
      = ({ variants := [0], selection := some 0 } : VariantSetState) := by decide
  rw [hinit]
  exact create_variant_layer_fold_variants n

/-- **C9**: a missing optional artifact is skipped, never fatal: if
`proxy.usdc` is absent `geoUsdExport` authors no proxy sublayer (and exactly
one when present); if the level-`i` geo LOD fragment is absent
`addGeoVariantsIntoGeoUsd` does not author variant `LODi` (and does when
present and `1 ≤ i ≤ lod_count`), while `LOD0` is always authored; if a
shader-LOD fragment is absent (or unreadable) `addShdVariantsIntoShdUsd` does
not author that variant, and authors it when the fragment exists and opens.
All assembly functions are total, so assembly completes with the smaller
composition. -/
theorem C9_missing_optional_artifact_skipped
    (ex op : String → Bool) (folder gdir sdir : String) (n i : ℕ) :
    (ex (folder ++ "/proxy.usdc") = false →
      geoUsdExport_subLayerPaths ex folder = []) ∧
    (ex (folder ++ "/proxy.usdc") = true →
      geoUsdExport_subLayerPaths ex folder = ["proxy.usdc"]) ∧
    (1 ≤ i → ex (geoLodPath gdir i) = false →
      i ∉ (addGeoVariantsIntoGeoUsd ex gdir n).variants) ∧
    (1 ≤ i → i ≤ n → ex (geoLodPath gdir i) = true →
      i ∈ (addGeoVariantsIntoGeoUsd ex gdir n).variants) ∧
    (0 ∈ (addGeoVariantsIntoGeoUsd ex gdir n).variants) ∧
    (∀ j ∈ [0, 2, 4, 10], ex (shdLodPath sdir j) = false →
      j ∉ (addShdVariantsIntoShdUsd ex op sdir).variants) ∧
    (∀ j ∈ [0, 2, 4, 10], ex (shdLodPath sdir j) = true →
      op (shdLodPath sdir j) = true →
      j ∈ (addShdVariantsIntoShdUsd ex op sdir).variants) := by
  refine ⟨?_, ?_, ?_, ?_, ?_, ?_, ?_⟩
  · intro hex
    unfold geoUsdExport_subLayerPaths
    rw [hex]
    rfl
  · intro hex
    unfold geoUsdExport_subLayerPaths
    rw [hex]
    rfl
  · intro hi hex hmem
    rw [addGeoVariantsIntoGeoUsd_variants] at hmem
    rcases List.mem_cons.1 hmem with h0 | h
    · omega
    · obtain ⟨k, _, hsome⟩ := List.mem_filterMap.1 h
      split at hsome
      · rename_i hcond
        have hki : k + 1 = i := Option.some.inj hsome
        rw [hki] at hcond
        rw [hcond] at hex
        exact Bool.noConfusion hex
      · exact Option.noConfusion hsome
  · intro hi hn hex
    rw [addGeoVariantsIntoGeoUsd_variants]
    refine List.mem_cons.2 (Or.inr (List.mem_filterMap.2 ⟨i - 1, ?_, ?_⟩))
    · exact List.mem_range.2 (by omega)
    · rw [Nat.sub_add_cancel hi, hex]
      rfl
  · rw [addGeoVariantsIntoGeoUsd_variants]
    exact List.mem_cons_self _ _
  · intro j hj hex hmem
    rw [addShdVariantsIntoShdUsd_variants] at hmem
    have hc : (ex (shdLodPath sdir j) && op (shdLodPath sdir j)) = false := by
      rw [hex]; rfl
    rcases (by simpa using hj : j = 0 ∨ j = 2 ∨ j = 4 ∨ j = 10) with rfl | rfl | rfl | rfl <;>
      rw [hc] at hmem <;>
      revert hmem <;>
      split_ifs <;> simp_all
  · intro j hj hex hop
    rw [addShdVariantsIntoShdUsd_variants]
    have hc : (ex (shdLodPath sdir j) && op (shdLodPath sdir j)) = true := by
      rw [hex, hop]; rfl
    rcases (by simpa using hj : j = 0 ∨ j = 2 ∨ j = 4 ∨ j = 10) with rfl | rfl | rfl | rfl <;>
      rw [hc] <;>
      split_ifs <;> simp_all

/-- Witness for C9: only the `LOD1` geo fragment exists on disk. -/
theorem C9_missing_optional_artifact_skipped_witness :
    (fun p => p == "/v/geoVariants/geoVariant_geoLOD1.usdc")
        (geoLodPath "/v/geoVariants" 1) = true ∧
    1 ∈ (addGeoVariantsIntoGeoUsd
          (fun p => p == "/v/geoVariants/geoVariant_geoLOD1.usdc")
          "/v/geoVariants" 2).variants ∧
    2 ∉ (addGeoVariantsIntoGeoUsd
          (fun p => p == "/v/geoVariants/geoVariant_geoLOD1.usdc")
          "/v/geoVariants" 2).variants :=
  ⟨by decide,
    (C9_missing_optional_artifact_skipped
        (fun p => p == "/v/geoVariants/geoVariant_geoLOD1.usdc")
        (fun _ => true) "/v" "/v/geoVariants" "/v/shdVariants" 2 1).2.2.2.1
      (by decide) (by decide) (by decide),
    (C9_missing_optional_artifact_skipped
        (fun p => p == "/v/geoVariants/geoVariant_geoLOD1.usdc")
        (fun _ => true) "/v" "/v/geoVariants" "/v/shdVariants" 2 2).2.2.1
      (by decide) (by decide)⟩

/-- **C5**: in distributed mode the assemble job's dependency-id list
(`assembly_dependencies`, passed verbatim as `JobDependencies` by
`submit_assemble_job`) contains the `export_base` job id and the id of every
producer job actually submitted: the texture-convert job when texture LODs
are enabled and the submission returned an id, the proxy job when the proxy
is enabled and returned an id, and every `lod[i]` (`1 ≤ i ≤ lod_count`)
whose submission returned an id. -/
theorem C5_assemble_depends_on_all_producers (cfg : DeadlineConfig)
    (exportId : String) (oiioId proxyId : Option String) (lodId : ℕ → Option String) :
    exportId ∈ assemblyDependencies cfg exportId oiioId proxyId lodId ∧
    (cfg.doTex = true → ∀ j, oiioId = some j →
      j ∈ assemblyDependencies cfg exportId oiioId proxyId lodId) ∧
    (cfg.hasProxy = true → ∀ j, proxyId = some j →
      j ∈ assemblyDependencies cfg exportId oiioId proxyId lodId) ∧
    (cfg.hasLods = true → ∀ i j, 1 ≤ i → i ≤ cfg.lodCount → lodId i = some j →
      j ∈ assemblyDependencies cfg exportId oiioId proxyId lodId) := by
  unfold assemblyDependencies
  dsimp only
  refine ⟨?_, ?_, ?_, ?_⟩
  · simp
  · intro htex j hj
    rw [htex, hj]
    simp
  · intro hpx j hj
    rw [hpx, hj]
    simp
  · intro hlods i j hi hin hj
    rw [hlods]
    simp only [if_true, List.mem_append]
    refine Or.inr (List.mem_filterMap.2 ⟨i - 1, List.mem_range.2 (by omega), ?_⟩)
    rw [Nat.sub_add_cancel hi, hj]

/-- Witness for C5: all options enabled, three LOD levels, every submission
returning an id. -/
theorem C5_assemble_depends_on_all_producers_witness :
    "lod2" ∈ assemblyDependencies
      { doTex := true, hasProxy := true, hasLods := true, lodCount := 3 }
      "exp" (some "tex") (some "prx")
      (fun i => some ("lod" ++ toString i)) :=
  (C5_assemble_depends_on_all_producers
      { doTex := true, hasProxy := true, hasLods := true, lodCount := 3 }
      "exp" (some "tex") (some "prx")
      (fun i => some ("lod" ++ toString i))).2.2.2
    rfl 2 "lod2" (by decide) (by decide) (by decide)

/-- **C7 counterexample**: in the 25.12.7 `_create_lod_usd` the level-2
reduction is applied to the *output of level 1* (face count 500 for a
1000-face original at 50% per step), not to a fresh duplicate of the
original full-resolution mesh. -/
theorem C7_counterexample :
    (create_lod_usd_trace 1000 50 2)[1]? = some (500, 250) ∧
    ((create_lod_usd_trace 1000 50 2)[1]?).map Prod.fst =
      ((create_lod_usd_trace 1000 50 2)[0]?).map Prod.snd ∧
    ¬ ((create_lod_usd_trace 1000 50 2)[1]?).map Prod.fst = some (1000 : ℚ) := by
  have h : create_lod_usd_trace 1000 50 2 = [(1000, 500), (500, 250)] := by
    unfold create_lod_usd_trace reduceMesh
    norm_num [List.range_succ, List.range_zero, List.foldl_append,
      List.foldl_cons, List.foldl_nil]
  rw [h]
  refine ⟨rfl, rfl, by decide⟩

/-- **C7 amended**: in the 26.02.03 pipeline (`run_local_publish` +
`_create_single_lod_usd`) every LOD level `i = k+1` reduces a fresh duplicate
of the original full-resolution mesh by the cumulative planned percentage,
yielding `orig * (base/100)^i` faces (when the 99% clamp is inactive); in the
25.12.7 `_create_lod_usd`, by contrast, each level's reduction chains on the
previously reduced mesh. -/
theorem C7_fresh_duplicate_per_level (orig b : ℚ) (n k : ℕ) (hk : k < n)
    (hb0 : 0 ≤ b) (hb1 : b ≤ 100) (hmin : 1 / 100 ≤ (b / 100) ^ (k + 1)) :
    ((run_local_geo_lod_trace orig b n)[k]?).map Prod.fst = some orig ∧
    ((run_local_geo_lod_trace orig b n)[k]?).map Prod.snd =
      some (orig * (b / 100) ^ (k + 1)) := by
  have hget : (run_local_geo_lod_trace orig b n)[k]? =
      some (orig, reduceMesh orig (removePercent b (k + 1))) := by
    unfold run_local_geo_lod_trace
    rw [List.getElem?_map, List.getElem?_range hk]
    rfl
  rw [hget]
  refine ⟨rfl, ?_⟩
  have hr0 : (0 : ℚ) ≤ b / 100 := by positivity
  have hr1 : b / 100 ≤ 1 := by
    rw [div_le_one (by norm_num : (0:ℚ) < 100)]
    exact hb1
  have hple : (b / 100) ^ (k + 1) ≤ 1 := pow_le_one₀ hr0 hr1
  have hclamp : removePercent b (k + 1) = 100 - (b / 100) ^ (k + 1) * 100 := by
    unfold removePercent
    rw [min_eq_right (by nlinarith), max_eq_right (by nlinarith)]
  rw [hclamp]
  unfold reduceMesh
  simp only [Option.map_some']
  congr 1
  ring

/-- Witness for the amended C7: 1000 faces, 50% kept per level, level 1. -/
theorem C7_fresh_duplicate_per_level_witness :
    ((run_local_geo_lod_trace 1000 50 2)[0]?).map Prod.fst = some (1000 : ℚ) ∧
    ((run_local_geo_lod_trace 1000 50 2)[0]?).map Prod.snd = some (500 : ℚ) := by
  have h := C7_fresh_duplicate_per_level 1000 50 2 0 (by omega)
    (by norm_num) (by norm_num) (by norm_num)
  refine ⟨h.1, ?_⟩
  rw [h.2]
  norm_num

/-- **C8**: `_next_version_folder` returns the label `v(max+1)` zero-padded
to at least 3 digits, where `max` is the largest value among scanned entries
matching `v` + ≥3 digits case-insensitively (0 if none): the returned label
itself parses back to `max+1` and has length ≥ 4; it never equals a scanned
entry that matches the pattern; the empty (or freshly created) parent yields
`v001`; and a parent containing `{v001, v002, v004}` yields `v005`. -/
theorem C8_next_version_folder_correct (entries : List (List Char)) :
    parseVersionName (next_version_folder entries) = some (maxVersion entries + 1) ∧
    4 ≤ (next_version_folder entries).length ∧
    (∀ e ∈ entries, ∀ k, parseVersionName e = some k →
      next_version_folder entries ≠ e) ∧
    next_version_folder [] = ['v', '0', '0', '1'] ∧
    next_version_folder ["v001".data, "v002".data, "v004".data] = "v005".data := by
  refine ⟨parseVersionName_versionLabel _, ?_, ?_, by decide, by decide⟩
  · show 4 ≤ ('v' :: zeroPad3 (maxVersion entries + 1)).length
    have := zeroPad3_length (maxVersion entries + 1)
    simp only [List.length_cons]
    omega
  · intro e he k hk heq
    have h1 : parseVersionName e = some (maxVersion entries + 1) := by
      rw [← heq]
      exact parseVersionName_versionLabel _
    rw [hk] at h1
    have hle := le_maxVersion entries e he k hk
    have : k = maxVersion entries + 1 := Option.some.inj h1
    omega

/-- Witness for C8: a parent whose only entry is `v001`. -/
theorem C8_next_version_folder_correct_witness :
    "v001".data ∈ ["v001".data] ∧ parseVersionName "v001".data = some 1 ∧
    next_version_folder ["v001".data] ≠ "v001".data :=
  ⟨by decide, by decide,
    (C8_next_version_folder_correct ["v001".data]).2.2.1 "v001".data
      (by decide) 1 (by decide)⟩

/-- **C10**: `_convert_single_file` skips existing outputs: whenever the
destination exists with size greater than zero, it returns success
(`True, "Skipped"`) without invoking the converter and leaves the filesystem
(in particular the destination file) unchanged; the outcome is independent of
the source path, the scale and even the converter itself, so a re-run is
idempotent and an existing non-empty output is never regenerated even when
its source tile has changed. -/
theorem C10_convert_single_file_skips_existing
    (runTool runTool2 : FileSystem → String → String → ℕ → Option FileSystem)
    (fs : FileSystem) (src src2 dst : String) (scale scale2 : ℕ)
    (n : ℕ) (hdst : fs.sizeOf dst = some n) (hn : 0 < n) :
    convert_single_file runTool fs src dst scale =
      { ok := true, msg := "Skipped", fs := fs, invokedTool := false } ∧
    convert_single_file runTool fs src dst scale =
      convert_single_file runTool2 fs src2 dst scale2 := by
  have hskip : ∀ (rt : FileSystem → String → String → ℕ → Option FileSystem)
      (s : String) (sc : ℕ),
      convert_single_file rt fs s dst sc =
        { ok := true, msg := "Skipped", fs := fs, invokedTool := false } := by
    intro rt s sc
    unfold convert_single_file
    rw [hdst]
    simp [hn]
  rw [hskip runTool src scale, hskip runTool2 src2 scale2]
  exact ⟨rfl, rfl⟩

/-- Witness for C10: the destination already exists with 7 bytes; the
converter (which would overwrite it) is never invoked. -/
theorem C10_convert_single_file_skips_existing_witness :
    convert_single_file (fun _ _ _ _ => none)
      { sizeOf := fun p => if p = "/tex/LOD2/t_LOD2.1001.tx" then some 7 else none }
      "/tex/t.1001.tx" "/tex/LOD2/t_LOD2.1001.tx" 2 =
    { ok := true, msg := "Skipped",
      fs := { sizeOf := fun p => if p = "/tex/LOD2/t_LOD2.1001.tx" then some 7 else none },
      invokedTool := false } :=
  (C10_convert_single_file_skips_existing (fun _ _ _ _ => none) (fun _ _ _ _ => none)
    { sizeOf := fun p => if p = "/tex/LOD2/t_LOD2.1001.tx" then some 7 else none }
    "/tex/t.1001.tx" "/tex/other.tx" "/tex/LOD2/t_LOD2.1001.tx" 2 4 7
    (by simp) (by omega)).1

end ShaderPublish
